import Mathlib

/-!
# Verification of `babbel2anki.py`

Shallow embedding of the pipeline in `src/babbel2anki.py`:
a paginated vocabulary fetch with JSON-schema validation, a dedup filter
against an existing CSV export, an idempotent media downloader, and a CSV
append writer.

Modelling conventions:
* JSON values are the inductive `Json`; numbers are modelled as exact
  rationals (the claims only exercise integer-valued fields).
* Python exceptions become `Except PyErr`; each distinct Python exception
  class that the code can raise gets its own constructor.
* `str(x)` on a parsed-JSON value is `pyStr`; it is exact on strings,
  and a fixed total rendering elsewhere (no claim depends on the rendering
  of numbers or containers, only on `pyStr` being one fixed function).
* The filesystem is explicit state: the export file is
  `Option (List (List String))` (rows of cells, `none` = file absent),
  the media directory is an association list from filename to bytes.
* The event loop in `download_media` starts every per-item coroutine before
  any executor completion callback runs, so all `os.path.isfile` checks of a
  fan-out batch observe the directory state from before the batch; the batch
  is embedded with that two-phase structure (all checks first, then the
  downloads and writes).
-/

namespace Babbel2Anki

/-- Python exception classes the program can raise. -/
inductive PyErr where
  | validationError
  | keyError (k : String)
  | indexError
  | typeError
  | attributeError
  | zeroDivisionError
  | netError
deriving DecidableEq

/-- Parsed JSON values (`requests.Response.json()` output). -/
inductive Json where
  | null
  | bool (b : Bool)
  | num (q : ℚ)
  | str (s : String)
  | arr (xs : List Json)
  | obj (kvs : List (String × Json))

mutual

/-- Boolean equality test on JSON values. -/
def beqJson : Json → Json → Bool
  | .null, .null => true
  | .bool a, .bool b => a == b
  | .num a, .num b => a == b
  | .str a, .str b => a == b
  | .arr a, .arr b => beqJsonList a b
  | .obj a, .obj b => beqJsonPairs a b
  | _, _ => false

def beqJsonList : List Json → List Json → Bool
  | [], [] => true
  | x :: xs, y :: ys => beqJson x y && beqJsonList xs ys
  | _, _ => false

def beqJsonPairs : List (String × Json) → List (String × Json) → Bool
  | [], [] => true
  | p :: ps, q :: qs => (p.1 == q.1) && beqJson p.2 q.2 && beqJsonPairs ps qs
  | _, _ => false

end

mutual

theorem beqJson_iff : ∀ a b : Json, beqJson a b = true ↔ a = b
  | .null, b => by cases b <;> simp [beqJson]
  | .bool x, b => by cases b <;> simp [beqJson]
  | .num x, b => by cases b <;> simp [beqJson]
  | .str x, b => by cases b <;> simp [beqJson]
  | .arr xs, b => by
    cases b <;> simp [beqJson]
    exact beqJsonList_iff xs _
  | .obj kvs, b => by
    cases b <;> simp [beqJson]
    exact beqJsonPairs_iff kvs _

theorem beqJsonList_iff : ∀ a b : List Json, beqJsonList a b = true ↔ a = b
  | [], b => by cases b <;> simp [beqJsonList]
  | x :: xs, [] => by simp [beqJsonList]
  | x :: xs, y :: ys => by
    simp [beqJsonList, beqJson_iff x y, beqJsonList_iff xs ys]

theorem beqJsonPairs_iff :
    ∀ a b : List (String × Json), beqJsonPairs a b = true ↔ a = b
  | [], b => by cases b <;> simp [beqJsonPairs]
  | p :: ps, [] => by simp [beqJsonPairs]
  | (k, v) :: ps, (k2, v2) :: qs => by
    simp [beqJsonPairs, beqJson_iff v v2, beqJsonPairs_iff ps qs]

end

instance : DecidableEq Json :=
  fun a b => decidable_of_iff (beqJson a b = true) (beqJson_iff a b)

instance {ε α : Type} [DecidableEq ε] [DecidableEq α] :
    DecidableEq (Except ε α) := fun a b =>
  match a, b with
  | .ok x, .ok y =>
    if h : x = y then .isTrue (h ▸ rfl)
    else .isFalse (fun hh => h (by cases hh; rfl))
  | .error x, .error y =>
    if h : x = y then .isTrue (h ▸ rfl)
    else .isFalse (fun hh => h (by cases hh; rfl))
  | .ok _, .error _ => .isFalse (fun hh => Except.noConfusion hh)
  | .error _, .ok _ => .isFalse (fun hh => Except.noConfusion hh)

/-- Sequential, left-to-right, exception-short-circuiting map: the semantics
of a Python list comprehension whose element expression may raise. -/
def mapME (f : α → Except PyErr β) : List α → Except PyErr (List β)
  | [] => .ok []
  | x :: xs =>
    match f x with
    | .error e => .error e
    | .ok y =>
      match mapME f xs with
      | .error e => .error e
      | .ok ys => .ok (y :: ys)

/-- Python `d[k]` on a parsed-JSON value: `KeyError` on a dict without the
key, `TypeError` when indexing a non-dict with a string key. -/
def jGet (j : Json) (k : String) : Except PyErr Json :=
  match j with
  | .obj kvs =>
    match kvs.lookup k with
    | some v => .ok v
    | none => .error (.keyError k)
  | _ => .error .typeError

/-- Overwrite-or-add on the key-value pairs of a dict. -/
def setPairs (kvs : List (String × Json)) (k : String) (v : Json) :
    List (String × Json) :=
  if kvs.any (fun p => p.1 = k) then
    kvs.map (fun p => if p.1 = k then (k, v) else p)
  else kvs ++ [(k, v)]

/-- Python `d[k] = v` (no-op on non-dicts; the program only assigns into
values it has already indexed as dicts). -/
def jSet (j : Json) (k : String) (v : Json) : Json :=
  match j with
  | .obj kvs => .obj (setPairs kvs k v)
  | _ => j

/-- Rendering of a rational as a decimal-free string: exact for integers,
which is the only case the program's data exercises. -/
def ratStr (q : ℚ) : String :=
  if q.den = 1 then toString q.num else toString q.num ++ "/" ++ toString q.den

mutual

/-- Python `str()` on a parsed-JSON value. Exact on strings, bools and
`None`; numbers and containers get a fixed total rendering. -/
def pyStr : Json → String
  | .null => "None"
  | .bool b => if b then "True" else "False"
  | .num q => ratStr q
  | .str s => s
  | .arr xs => "[" ++ String.intercalate ", " (pyStrList xs) ++ "]"
  | .obj kvs => "\x7b" ++ String.intercalate ", " (pyStrPairs kvs) ++ "\x7d"

def pyStrList : List Json → List String
  | [] => []
  | x :: xs => pyStr x :: pyStrList xs

def pyStrPairs : List (String × Json) → List String
  | [] => []
  | p :: ps => (p.1 ++ ": " ++ pyStr p.2) :: pyStrPairs ps

end

/-! ## Settings (lines 19–65 of the source) -/

/-- The two media kinds; `download_media_item` asserts the kind is one of
exactly these two strings, so the dynamic string is embedded as a closed
enumeration. -/
inductive MediaType where
  | image
  | audio
deriving DecidableEq

/-- `media_urls[kind].format(media_id)`. -/
def media_urls (t : MediaType) (mediaId : String) : String :=
  match t with
  | .image => "https://d3hmols351pw2y.cloudfront.net/image/400x400/" ++ mediaId ++ ".jpg"
  | .audio => "https://d3hmols351pw2y.cloudfront.net/sound/" ++ mediaId ++ ".mp3"

/-- `media_filenames[kind].format(media_id)`. -/
def media_filenames (t : MediaType) (mediaId : String) : String :=
  match t with
  | .image => "rus_" ++ mediaId ++ ".jpg"
  | .audio => "rus_" ++ mediaId ++ ".mp3"

/-- `media_entries[kind].format(filename)`. -/
def media_entries (t : MediaType) (filename : String) : String :=
  match t with
  | .image => "<img src=\"" ++ filename ++ "\">"
  | .audio => "[sound:" ++ filename ++ "]"

/-- `media_id_fields`. -/
def media_id_fields : MediaType → String
  | .image => "image_id"
  | .audio => "sound_id"

/-- `media_csv_fields`. -/
def media_csv_fields : MediaType → String
  | .image => "image_path"
  | .audio => "audio_path"

/-- `csv_fieldnames`. -/
def csv_fieldnames : List String :=
  ["id", "type", "image_id", "image_path", "sound_id",
   "audio_path", "l1_text", "l2_text", "info_text"]

/-! ## The response schema (lines 26–47) -/

/-- Draft-04 check of `#/definitions/review`: an object whose four listed
properties are all required, `trainer_items` an array, the other three
numbers. -/
def validate_review (j : Json) : Bool :=
  match j with
  | .obj kvs =>
    (match kvs.lookup "trainer_items" with
     | some (.arr _) => true
     | _ => false) &&
    (match kvs.lookup "total_filtered_items" with
     | some (.num _) => true
     | _ => false) &&
    (match kvs.lookup "per_page_limit" with
     | some (.num _) => true
     | _ => false) &&
    (match kvs.lookup "page" with
     | some (.num _) => true
     | _ => false)
  | _ => false

/-- Draft-04 check of the top-level `schema`: the instance must be an
object; the `review` property, when present, must satisfy
`#/definitions/review`. The top level has no `required` list, so an object
without a `review` key validates. -/
def validate (j : Json) : Bool :=
  match j with
  | .obj kvs =>
    match kvs.lookup "review" with
    | some r => validate_review r
    | none => true
  | _ => false

/-! ## `select_new_vocabulary` (lines 68–83) -/

/-- `[row[0] for row in reader]`: `IndexError` on an empty row. -/
def firstColumn : List (List String) → Except PyErr (List String)
  | [] => .ok []
  | row :: rest =>
    match row with
    | [] => .error .indexError
    | c :: _ =>
      match firstColumn rest with
      | .error e => .error e
      | .ok cs => .ok (c :: cs)

/-- `[v for v in vocabulary if str(v["id"]) not in existing_ids]`. -/
def filterNewVocabulary (ids : List String) : List Json → Except PyErr (List Json)
  | [] => .ok []
  | item :: rest =>
    match jGet item "id" with
    | .error e => .error e
    | .ok idv =>
      match filterNewVocabulary ids rest with
      | .error e => .error e
      | .ok tail => .ok (if pyStr idv ∈ ids then tail else item :: tail)

/-- `select_new_vocabulary`: `file` is the current export file
(`none` = `FileNotFoundError` branch, which returns the whole input). -/
def select_new_vocabulary (file : Option (List (List String)))
    (vocabulary : List Json) : Except PyErr (List Json) :=
  match file with
  | none => .ok vocabulary
  | some rows =>
    match firstColumn rows with
    | .error e => .error e
    | .ok existing_ids => filterNewVocabulary existing_ids vocabulary

/-! ## `write_csv` (lines 86–98) -/

/-- The two `str.replace` calls stripping `)` then `(` from `l2_text`:
replacing a one-character pattern by the empty string deletes every
occurrence of that character, so the two calls together delete every
parenthesis. -/
def stripParens (s : String) : String :=
  String.mk (s.data.filter (fun c => (c != ')') && (c != '(')))

/-- The clean-up loop body for one item: reading `item["l2_text"]` can raise
`KeyError`; calling `.replace` on a non-string raises `AttributeError`. -/
def cleanItem (e : Json) : Except PyErr Json :=
  match jGet e "l2_text" with
  | .error err => .error err
  | .ok (.str s) => .ok (jSet e "l2_text" (.str (stripParens s)))
  | .ok _ => .error .attributeError

/-- One output cell of `csv.DictWriter` with `extrasaction="ignore"` and the
default `restval=""`: the stringified field value when present, empty when
absent. -/
def csvCell (e : Json) (f : String) : String :=
  match jGet e f with
  | .ok v => pyStr v
  | .error _ => ""

/-- `write_csv`: clean every item's `l2_text`, then append one projected row
per item. Returns the rows appended to the file. -/
def write_csv (vocabulary : List Json) : Except PyErr (List (List String)) :=
  match mapME cleanItem vocabulary with
  | .error e => .error e
  | .ok cleaned => .ok (cleaned.map (fun e => csv_fieldnames.map (csvCell e)))

/-! ## Media download (lines 101–135) -/

/-- Raw bytes of a media file. -/
abbrev Bytes := List Nat

/-- The media directory: filename ↦ content. -/
abbrev MediaFs := List (String × Bytes)

/-- A `requests` response for a media URL. `download_media_item` never
inspects `status`. -/
structure HttpResponse where
  status : Nat
  content : Bytes
deriving DecidableEq

/-- `open(path, "wb")` followed by a full write: create or truncate. -/
def fsWrite (fs : MediaFs) (filename : String) (content : Bytes) : MediaFs :=
  if fs.any (fun p => p.1 = filename) then
    fs.map (fun p => if p.1 = filename then (filename, content) else p)
  else fs ++ [(filename, content)]

/-- `os.path.isfile`. -/
def fsHasFile (fs : MediaFs) (filename : String) : Bool :=
  fs.any (fun p => p.1 = filename)

/-- `download_media_item` for a single call: returns
`((filename, file_exists), fs', requests_made)`. The network is an oracle
from URL to either a transport error or a response; the response body is
written unconditionally (the code never checks the HTTP status). -/
def download_media_item (mediaId : String) (t : MediaType) (fs : MediaFs)
    (net : String → Except Unit HttpResponse) :
    Except PyErr ((String × Bool) × MediaFs × Nat) :=
  let media_filename := media_filenames t mediaId
  if fsHasFile fs media_filename then
    .ok ((media_filename, true), fs, 0)
  else
    match net (media_urls t mediaId) with
    | .error _ => .error .netError
    | .ok resp => .ok ((media_filename, false), fsWrite fs media_filename resp.content, 1)

/-- Outcome of one item inside a media fan-out batch:
(filename, pre-existed, downloaded content if any). -/
abbrev ItemResult := String × Bool × Option Bytes

/-- The synchronous prefix of one `download_media_item` coroutine:
(id string, filename, `os.path.isfile` result) against the directory state
at batch start. -/
def checkOf (t : MediaType) (fs : MediaFs) (idv : Json) :
    String × String × Bool :=
  (pyStr idv, media_filenames t (pyStr idv),
   fsHasFile fs (media_filenames t (pyStr idv)))

/-- The rest of one `download_media_item` coroutine: nothing to do when the
file existed, otherwise the network fetch (whose body will be written). -/
def fetchCheck (t : MediaType) (net : String → Except Unit HttpResponse)
    (c : String × String × Bool) : Except PyErr ItemResult :=
  if c.2.2 then .ok (c.2.1, true, none)
  else
    match net (media_urls t c.1) with
    | .error _ => .error .netError
    | .ok resp => .ok (c.2.1, false, some resp.content)

/-- The write of one downloaded body into the media directory. -/
def writeResult (acc : MediaFs) (r : ItemResult) : MediaFs :=
  match r.2.2 with
  | some content => fsWrite acc r.1 content
  | none => acc

/-- The rewrite `download_media` applies to one (entry, result) pair after
a batch: set the kind's reference field from the returned filename. -/
def applyResult (t : MediaType) (p : Json × ItemResult) : Json :=
  jSet p.1 (media_csv_fields t) (.str (media_entries t p.2.1))

/-- One media-kind fan-out batch of `download_media`: every coroutine's
existence check runs against the directory state from before the batch
(the event loop starts all tasks before any download completes), then the
absent files are fetched and written. Returns the updated items, directory,
the already-existed count, and the number of network requests. -/
def download_media_kind (vocabulary : List Json) (t : MediaType)
    (fs : MediaFs) (net : String → Except Unit HttpResponse) :
    Except PyErr (List Json × MediaFs × Nat × Nat) :=
  match mapME (fun e => jGet e (media_id_fields t)) vocabulary with
  | .error e => .error e
  | .ok ids =>
    match mapME (fetchCheck t net) (ids.map (checkOf t fs)) with
    | .error e => .error e
    | .ok results =>
      .ok ((vocabulary.zip results).map (applyResult t),
           results.foldl writeResult fs,
           results.countP (fun r => r.2.1),
           results.countP (fun r => !r.2.1))

/-- `download_media`: the image batch, then the audio batch on the updated
items and directory. Returns the final items, directory, the per-kind
already-existed counts, and the total number of network requests. -/
def download_media (vocabulary : List Json) (fs : MediaFs)
    (net : String → Except Unit HttpResponse) :
    Except PyErr (List Json × MediaFs × (Nat × Nat) × Nat) :=
  match download_media_kind vocabulary .image fs net with
  | .error e => .error e
  | .ok (v1, fs1, c1, r1) =>
    match download_media_kind v1 .audio fs1 net with
    | .error e => .error e
    | .ok (v2, fs2, c2, r2) => .ok (v2, fs2, (c1, c2), r1 + r2)

/-! ## Page fetch and collection (lines 138–174) -/

/-- `math.ceil(t / p)` on exact rationals, computed on the integer fraction
`(t.num * p.den) / (p.num * t.den)` so that it evaluates by reduction
(`theorem mathCeilDiv_eq_ceil` below identifies it with `⌈t / p⌉`). -/
def mathCeilDiv (t p : ℚ) : Int :=
  (Rat.divInt (t.num * (p.den : Int)) (p.num * (t.den : Int))).ceil

/-- `get_babbel_vocabulary_page` for one page: validate the response,
unwrap `review`, return the page's items and
`math.ceil(total_filtered_items / per_page_limit)`. -/
def get_babbel_vocabulary_page (resp : Json) :
    Except PyErr (List Json × Int) :=
  if validate resp then
    match jGet resp "review" with
    | .error e => .error e
    | .ok review =>
      match jGet review "trainer_items", jGet review "total_filtered_items",
            jGet review "per_page_limit" with
      | .ok (.arr items), .ok (.num total), .ok (.num per) =>
        if per = 0 then .error .zeroDivisionError
        else .ok (items, mathCeilDiv total per)
      | _, _, _ => .error .typeError
  else .error .validationError

/-- `range(2, num_pages + 1)`: the extra pages the collector requests after
page 1. -/
def collector_extra_pages (numPages : Int) : List Nat :=
  if numPages > 1 then List.range' 2 (numPages - 1).toNat else []

/-- `get_babbel_vocabulary`: fetch page 1, then every extra page, and
concatenate the items (linearised in page order). -/
def get_babbel_vocabulary (pages : Nat → Json) : Except PyErr (List Json) :=
  match get_babbel_vocabulary_page (pages 1) with
  | .error e => .error e
  | .ok (items1, numPages) =>
    match mapME (fun p => get_babbel_vocabulary_page (pages p))
        (collector_extra_pages numPages) with
    | .error e => .error e
    | .ok rest => .ok (items1 ++ (rest.map Prod.fst).flatten)

/-! ## The `__main__` pipeline (lines 177–183) -/

/-- Local durable state: the export CSV (rows of cells, `none` when the
file does not exist) and the media directory. -/
structure SysState where
  exportFile : Option (List (List String))
  mediaFs : MediaFs
deriving DecidableEq

/-- Observable counts of one run. -/
structure RunStats where
  rowsAppended : Nat
  mediaRequests : Nat
deriving DecidableEq

/-- The remote service: a JSON response per page number, and the media
network oracle. -/
structure Remote where
  pages : Nat → Json
  net : String → Except Unit HttpResponse

/-- The `__main__` block: collect, dedup, and — only when something new
exists — download media and append to the CSV. On an error the process
dies; no state is produced, and the export file is untouched. -/
def main_run (remote : Remote) (s : SysState) :
    Except PyErr (SysState × RunStats) :=
  match get_babbel_vocabulary remote.pages with
  | .error e => .error e
  | .ok vocabulary =>
    match select_new_vocabulary s.exportFile vocabulary with
    | .error e => .error e
    | .ok newVocabulary =>
      if newVocabulary.isEmpty then .ok (s, ⟨0, 0⟩)
      else
        match download_media newVocabulary s.mediaFs remote.net with
        | .error e => .error e
        | .ok (vocabulary2, fs2, _counts, reqs) =>
          match write_csv vocabulary2 with
          | .error e => .error e
          | .ok rows =>
            .ok ({ exportFile := some (s.exportFile.getD [] ++ rows),
                   mediaFs := fs2 },
                 ⟨rows.length, reqs⟩)

/-- The export file as observed after a run: an uncaught exception kills
the process with the file untouched. -/
def run_export_file (remote : Remote) (s : SysState) :
    Option (List (List String)) :=
  match main_run remote s with
  | .ok (s2, _) => s2.exportFile
  | .error _ => s.exportFile

/-! ## Concrete-input builders used in statements -/

/-- A response envelope of the required shape. -/
def mkResp (items : List Json) (total per pg : ℚ) : Json :=
  .obj [("review", .obj
    [("trainer_items", .arr items),
     ("total_filtered_items", .num total),
     ("per_page_limit", .num per),
     ("page", .num pg)])]

/-- The shape the specification requires of a page response: an object whose
`review` member is an object carrying an array of items and three numeric
fields. (Spec-side definition, for comparison with the code's `validate`.) -/
def specResponseConforms (j : Json) : Bool :=
  match j with
  | .obj kvs =>
    match kvs.lookup "review" with
    | some r => validate_review r
    | none => false
  | _ => false

/-- A response that is an object whose `review` member is an object missing
the `total_filtered_items` field. -/
def review_missing_total (j : Json) : Bool :=
  match j with
  | .obj kvs =>
    match kvs.lookup "review" with
    | some (.obj rkvs) => (rkvs.lookup "total_filtered_items").isNone
    | some _ => false
    | none => false
  | _ => false

/-- The string the dedup filter compares for an entry: `str(item["id"])`
(empty for an entry without an `id` key; the program raises `KeyError`
before ever using that default). -/
def idString (e : Json) : String :=
  match jGet e "id" with
  | .ok v => pyStr v
  | .error _ => ""

/-- Whether an entry's media file of the given kind is already on disk. -/
def entryFileExists (t : MediaType) (fs : MediaFs) (e : Json) : Bool :=
  match jGet e (media_id_fields t) with
  | .ok v => fsHasFile fs (media_filenames t (pyStr v))
  | .error _ => false

/-- The cleaned form of an entry (identity when the cleanup would raise;
the program raises there, so the default is never observed). -/
def cleanedOf (e : Json) : Json :=
  match cleanItem e with
  | .ok x => x
  | .error _ => e

/-- The media id an entry carries for a kind (`null` when absent; the
program raises there, so the default is never observed). -/
def mediaIdOf (t : MediaType) (e : Json) : Json :=
  match jGet e (media_id_fields t) with
  | .ok x => x
  | .error _ => .null

/-- The rewrite a media batch of kind `t` applies to one entry: set the
kind's reference field to the embed template of the entry's filename. -/
def mediaUpdate (t : MediaType) (e : Json) : Json :=
  jSet e (media_csv_fields t)
    (.str (media_entries t (media_filenames t (pyStr (mediaIdOf t e)))))

/-- Decidable "did not raise" test on an embedded Python computation. -/
def isOkE {α : Type} (x : Except PyErr α) : Bool :=
  match x with
  | .ok _ => true
  | .error _ => false

/-! ## General helper lemmas -/

theorem isOkE_iff {α : Type} (x : Except PyErr α) :
    isOkE x = true ↔ ∃ y, x = .ok y := by
  cases x <;> simp [isOkE]

theorem mapME_ok_length {α β : Type} {f : α → Except PyErr β} :
    ∀ {xs : List α} {ys : List β}, mapME f xs = .ok ys → ys.length = xs.length
  | [], ys => by intro h; simp [mapME] at h; simp [← h]
  | x :: xs, ys => by
    intro h
    simp only [mapME] at h
    cases hfx : f x with
    | error e => rw [hfx] at h; exact absurd h (by simp)
    | ok y =>
      rw [hfx] at h
      cases hrest : mapME f xs with
      | error e => rw [hrest] at h; exact absurd h (by simp)
      | ok ys0 =>
        rw [hrest] at h
        cases h
        simp [mapME_ok_length hrest]

theorem mapME_ok_mem {α β : Type} {f : α → Except PyErr β} :
    ∀ {xs : List α} {ys : List β}, mapME f xs = .ok ys →
      ∀ x ∈ xs, ∃ y, f x = .ok y
  | [], ys => by intro _ x hx; cases hx
  | x :: xs, ys => by
    intro h z hz
    simp only [mapME] at h
    cases hfx : f x with
    | error e => rw [hfx] at h; exact absurd h (by simp)
    | ok y =>
      rw [hfx] at h
      cases hrest : mapME f xs with
      | error e => rw [hrest] at h; exact absurd h (by simp)
      | ok ys0 =>
        rcases List.mem_cons.mp hz with rfl | hz2
        · exact ⟨y, hfx⟩
        · exact mapME_ok_mem hrest z hz2

theorem mapME_eq_map {α β : Type} {f : α → Except PyErr β} {g : α → β} :
    ∀ {xs : List α}, (∀ x ∈ xs, f x = .ok (g x)) →
      mapME f xs = .ok (xs.map g)
  | [] => by intro _; simp [mapME]
  | x :: xs => by
    intro h
    have hx := h x (List.mem_cons_self x xs)
    have hxs := mapME_eq_map (fun z hz => h z (List.mem_cons_of_mem x hz))
    simp [mapME, hx, hxs]

theorem mapME_ok_eq_map {α β : Type} {f : α → Except PyErr β} {g : α → β}
    {xs : List α} {ys : List β} (h : mapME f xs = .ok ys)
    (hg : ∀ x ∈ xs, f x = .ok (g x)) : ys = xs.map g := by
  have h2 := mapME_eq_map hg
  rw [h] at h2
  cases h2
  rfl

theorem mapME_error_first {β : Type} {f : ℕ → Except PyErr β} {e : PyErr} :
    ∀ {l : List ℕ} {p : ℕ}, l.Pairwise (· < ·) → p ∈ l → f p = .error e →
      (∀ q ∈ l, q < p → ∃ r, f q = .ok r) → mapME f l = .error e
  | [], p => by intro _ hmem; cases hmem
  | a :: l, p => by
    intro hsort hmem hp hok
    rcases List.mem_cons.mp hmem with rfl | hmem2
    · simp [mapME, hp]
    · have ha : a < p := (List.pairwise_cons.mp hsort).1 p hmem2
      obtain ⟨r, hr⟩ := hok a (List.mem_cons_self a l) ha
      have htail := mapME_error_first (List.pairwise_cons.mp hsort).2 hmem2 hp
        (fun q hq hqp => hok q (List.mem_cons_of_mem a hq) hqp)
      simp [mapME, hr, htail]

theorem zip_self_map {α β : Type} (l : List α) (g : α → β) :
    l.zip (l.map g) = l.map (fun x => (x, g x)) := by
  induction l with
  | nil => rfl
  | cons a l ih => simp [ih]

theorem lookup_replaceKey_ne (kvs : List (String × Json)) (k k' : String)
    (v : Json) (h : k' ≠ k) :
    (kvs.map (fun p => if p.1 = k then (k, v) else p)).lookup k' =
      kvs.lookup k' := by
  induction kvs with
  | nil => rfl
  | cons a kvs ih =>
    simp only [List.map_cons]
    by_cases ha : a.1 = k
    · rw [if_pos ha]
      simp only [List.lookup]
      have h1 : (k' == k) = false := by simp [h]
      have h2 : (k' == a.1) = false := by simp [ha, h]
      rw [h1, h2, ih]
    · rw [if_neg ha]
      simp only [List.lookup]
      cases hk : (k' == a.1) <;> simp [hk, ih]

theorem lookup_appendKey_ne (kvs : List (String × Json)) (k k' : String)
    (v : Json) (h : k' ≠ k) :
    (kvs ++ [(k, v)]).lookup k' = kvs.lookup k' := by
  induction kvs with
  | nil => simp [List.lookup, show (k' == k) = false by simp [h]]
  | cons a kvs ih =>
    simp only [List.cons_append, List.lookup]
    cases hk : (k' == a.1) <;> simp [hk, ih]

theorem lookup_setPairs_ne (kvs : List (String × Json)) (k k' : String)
    (v : Json) (h : k' ≠ k) :
    (setPairs kvs k v).lookup k' = kvs.lookup k' := by
  unfold setPairs
  split
  · exact lookup_replaceKey_ne kvs k k' v h
  · exact lookup_appendKey_ne kvs k k' v h

theorem jGet_jSet_ne (j : Json) (k k' : String) (v : Json) (h : k' ≠ k) :
    jGet (jSet j k v) k' = jGet j k' := by
  cases j <;> simp [jGet, jSet]
  rw [lookup_setPairs_ne _ _ _ _ h]

theorem fsHasFile_fsWrite_self (fs : MediaFs) (f : String) (c : Bytes) :
    fsHasFile (fsWrite fs f c) f = true := by
  unfold fsWrite fsHasFile
  split
  · next hany =>
    rw [List.any_eq_true] at hany ⊢
    obtain ⟨p, hp, hpf⟩ := hany
    have hpf2 : p.1 = f := of_decide_eq_true hpf
    exact ⟨(f, c), List.mem_map.mpr ⟨p, hp, by simp [hpf2]⟩, by simp⟩
  · rw [List.any_eq_true]
    exact ⟨(f, c), by simp⟩

theorem ratCeil_eq_ceil (q : ℚ) : (Rat.ceil q : ℤ) = ⌈q⌉ := by
  by_cases h1 : q.den = 1
  · have hq : (q.num : ℚ) = q := by
      have := Rat.num_div_den q
      rw [h1] at this
      simpa using this
    rw [Rat.ceil, if_pos h1]
    conv_rhs => rw [← hq]
    rw [Int.ceil_intCast]
  · have hdpos : (0 : ℤ) < (q.den : ℤ) := by exact_mod_cast q.den_pos
    have hdne : (q.den : ℤ) ≠ 0 := ne_of_gt hdpos
    have hndvd : ¬ ((q.den : ℤ) ∣ q.num) := by
      intro hdvd
      have h2 : q.den ∣ q.num.natAbs := by
        rwa [Int.natCast_dvd] at hdvd
      have h3 : q.den ∣ Nat.gcd q.num.natAbs q.den :=
        Nat.dvd_gcd h2 dvd_rfl
      rw [q.reduced] at h3
      exact h1 (Nat.dvd_one.mp h3)
    set c : ℤ := q.num / (q.den : ℤ) with hc
    have hmod : (q.den : ℤ) * c + q.num % (q.den : ℤ) = q.num :=
      Int.ediv_add_emod q.num (q.den : ℤ)
    have hr0 : 0 ≤ q.num % (q.den : ℤ) := Int.emod_nonneg q.num hdne
    have hrlt : q.num % (q.den : ℤ) < (q.den : ℤ) :=
      Int.emod_lt_of_pos q.num hdpos
    have hrne : q.num % (q.den : ℤ) ≠ 0 := by
      intro hr
      exact hndvd (Int.dvd_of_emod_eq_zero hr)
    have hlt : (q.den : ℤ) * c < q.num := by
      have : 0 < q.num % (q.den : ℤ) := lt_of_le_of_ne hr0 (Ne.symm hrne)
      omega
    have hle : q.num ≤ (c + 1) * (q.den : ℤ) := by nlinarith
    have hqnum : ((q.num : ℚ)) / ((q.den : ℚ)) = q := Rat.num_div_den q
    have hceil : ⌈q⌉ = c + 1 := by
      rw [Int.ceil_eq_iff]
      refine ⟨?_, ?_⟩
      · have hlt2 : c * (q.den : ℤ) < q.num := by rw [mul_comm]; exact hlt
        have hcq : (c : ℚ) < q := by
          rw [← hqnum, lt_div_iff₀ (by exact_mod_cast hdpos)]
          exact_mod_cast hlt2
        push_cast
        linarith
      · rw [← hqnum, div_le_iff₀ (by exact_mod_cast hdpos)]
        exact_mod_cast hle
    rw [Rat.ceil, if_neg h1, hceil]

/-! ## Stage characterisations -/

theorem firstColumn_eq : ∀ {rows : List (List String)},
    (∀ r ∈ rows, r ≠ []) →
    firstColumn rows = .ok (rows.map (fun r => r.headD ""))
  | [] => fun _ => rfl
  | row :: rest => by
    intro h
    cases row with
    | nil => exact absurd rfl (h [] (List.mem_cons_self [] rest))
    | cons c cs =>
      have ht := firstColumn_eq (fun r hr => h r (List.mem_cons_of_mem _ hr))
      simp [firstColumn, ht]

theorem firstColumn_ok_nonempty :
    ∀ {rows : List (List String)} {cs : List String},
    firstColumn rows = .ok cs → ∀ r ∈ rows, r ≠ []
  | [], cs => by intro _ r hr; cases hr
  | row :: rest, cs => by
    intro h r hr
    cases row with
    | nil => simp [firstColumn] at h
    | cons c cs0 =>
      rcases List.mem_cons.mp hr with rfl | hr2
      · simp
      · simp only [firstColumn] at h
        cases hrest : firstColumn rest with
        | error e => rw [hrest] at h; exact absurd h (by simp)
        | ok cs1 => exact firstColumn_ok_nonempty hrest r hr2

theorem filterNewVocabulary_eq (ids : List String) :
    ∀ {v : List Json}, (∀ e ∈ v, ∃ x, jGet e "id" = .ok x) →
    filterNewVocabulary ids v =
      .ok (v.filter (fun e => !(decide (idString e ∈ ids))))
  | [] => fun _ => rfl
  | e :: v => by
    intro h
    obtain ⟨x, hx⟩ := h e (List.mem_cons_self e v)
    have ht := filterNewVocabulary_eq ids
      (fun z hz => h z (List.mem_cons_of_mem _ hz))
    have hid : idString e = pyStr x := by simp [idString, hx]
    simp only [filterNewVocabulary, hx, ht, List.filter_cons, hid]
    by_cases hmem : pyStr x ∈ ids
    · simp [hmem]
    · simp [hmem]

theorem filterNewVocabulary_ok_ids :
    ∀ {ids : List String} {v nv : List Json},
    filterNewVocabulary ids v = .ok nv → ∀ e ∈ v, ∃ x, jGet e "id" = .ok x
  | _, [], nv => by intro _ e he; cases he
  | ids, e0 :: v, nv => by
    intro h e he
    simp only [filterNewVocabulary] at h
    cases hx : jGet e0 "id" with
    | error err => rw [hx] at h; exact absurd h (by simp)
    | ok x =>
      rw [hx] at h
      cases ht : filterNewVocabulary ids v with
      | error err => rw [ht] at h; exact absurd h (by simp)
      | ok tail =>
        rcases List.mem_cons.mp he with rfl | he2
        · exact ⟨x, hx⟩
        · exact filterNewVocabulary_ok_ids ht e he2

theorem select_some_eq {rows : List (List String)} {v : List Json}
    (h1 : ∀ r ∈ rows, r ≠ []) (h2 : ∀ e ∈ v, ∃ x, jGet e "id" = .ok x) :
    select_new_vocabulary (some rows) v =
      .ok (v.filter (fun e =>
        !(decide (idString e ∈ rows.map (fun r => r.headD ""))))) := by
  simp [select_new_vocabulary, firstColumn_eq h1, filterNewVocabulary_eq _ h2]

theorem select_some_parts {rows : List (List String)} {v nv : List Json}
    (h : select_new_vocabulary (some rows) v = .ok nv) :
    (∀ r ∈ rows, r ≠ []) ∧ (∀ e ∈ v, ∃ x, jGet e "id" = .ok x) ∧
    nv = v.filter (fun e =>
      !(decide (idString e ∈ rows.map (fun r => r.headD "")))) := by
  simp only [select_new_vocabulary] at h
  cases hfc : firstColumn rows with
  | error e => rw [hfc] at h; exact absurd h (by simp)
  | ok ids =>
    rw [hfc] at h
    have hne := firstColumn_ok_nonempty hfc
    have hids : ids = rows.map (fun r => r.headD "") :=
      Except.ok.inj (hfc.symm.trans (firstColumn_eq hne))
    have hok := filterNewVocabulary_ok_ids h
    refine ⟨hne, hok, ?_⟩
    have h2 := Except.ok.inj (h.symm.trans (filterNewVocabulary_eq ids hok))
    rw [h2, hids]

theorem jGet_cleanedOf_ne (e : Json) (k : String) (hk : k ≠ "l2_text") :
    jGet (cleanedOf e) k = jGet e k := by
  unfold cleanedOf cleanItem
  cases hg : jGet e "l2_text" with
  | error err => simp
  | ok x =>
    cases x <;>
      simp [jGet_jSet_ne e "l2_text" k _ hk]

theorem idString_cleanedOf (e : Json) : idString (cleanedOf e) = idString e := by
  simp [idString, jGet_cleanedOf_ne e "id" (by decide)]

theorem idString_mediaUpdate (t : MediaType) (e : Json) :
    idString (mediaUpdate t e) = idString e := by
  have h : "id" ≠ media_csv_fields t := by cases t <;> decide
  simp [idString, mediaUpdate, jGet_jSet_ne e (media_csv_fields t) "id" _ h]

theorem download_media_kind_parts {v : List Json} {t : MediaType}
    {fs : MediaFs} {net : String → Except Unit HttpResponse}
    {v2 : List Json} {fs2 : MediaFs} {c r : Nat}
    (h : download_media_kind v t fs net = .ok (v2, fs2, c, r)) :
    (∀ e ∈ v, ∃ x, jGet e (media_id_fields t) = .ok x) ∧
    v2 = v.map (mediaUpdate t) ∧
    c = v.countP (entryFileExists t fs) ∧
    r = v.countP (fun e => !(entryFileExists t fs e)) := by
  simp only [download_media_kind] at h
  cases hids : mapME (fun e => jGet e (media_id_fields t)) v with
  | error e => rw [hids] at h; exact absurd h (by simp)
  | ok ids =>
    rw [hids] at h
    dsimp only at h
    have hidok := mapME_ok_mem hids
    have hids2 : ids = v.map (mediaIdOf t) :=
      mapME_ok_eq_map hids (fun e he => by
        obtain ⟨x, hx⟩ := hidok e he
        simp [mediaIdOf, hx])
    cases hres : mapME (fetchCheck t net) (ids.map (checkOf t fs)) with
    | error e => rw [hres] at h; exact absurd h (by simp)
    | ok results =>
      rw [hres] at h
      have hresmem := mapME_ok_mem hres
      have hresults : results = (ids.map (checkOf t fs)).map
          (fun ch => match fetchCheck t net ch with
            | .ok y => y
            | .error _ => (ch.2.1, ch.2.2, none)) :=
        mapME_ok_eq_map hres (fun ch hch => by
          obtain ⟨y, hy⟩ := hresmem ch hch
          simp [hy])
      have hfst : ∀ ch : String × String × Bool,
          (match fetchCheck t net ch with
           | .ok y => y
           | .error _ => (ch.2.1, ch.2.2, none)).1 = ch.2.1 := by
        intro ch
        unfold fetchCheck
        by_cases hex : ch.2.2
        · simp [hex]
        · simp only [hex, if_neg]
          cases net (media_urls t ch.1) <;> simp
      have hsnd : ∀ ch : String × String × Bool,
          (match fetchCheck t net ch with
           | .ok y => y
           | .error _ => (ch.2.1, ch.2.2, none)).2.1 = ch.2.2 := by
        intro ch
        unfold fetchCheck
        by_cases hex : ch.2.2
        · simp [hex]
        · simp only [hex, if_neg]
          cases net (media_urls t ch.1) <;> simp [hex]
      have hresG : results = v.map (fun e =>
          match fetchCheck t net (checkOf t fs (mediaIdOf t e)) with
          | .ok y => y
          | .error _ =>
            ((checkOf t fs (mediaIdOf t e)).2.1,
             (checkOf t fs (mediaIdOf t e)).2.2, none)) := by
        rw [hresults, hids2, List.map_map, List.map_map]
        rfl
      simp only [Except.ok.injEq, Prod.mk.injEq] at h
      obtain ⟨hA, _, hC, hD⟩ := h
      refine ⟨hidok, ?_, ?_, ?_⟩
      · rw [← hA, hresG, zip_self_map, List.map_map]
        apply List.map_congr_left
        intro e _
        simp only [Function.comp, applyResult, mediaUpdate, hfst]
        rfl
      · rw [← hC, hresG, List.countP_map]
        apply List.countP_congr
        intro e he
        obtain ⟨x, hx⟩ := hidok e he
        simp [Function.comp, hsnd, checkOf, entryFileExists, mediaIdOf, hx]
      · rw [← hD, hresG, List.countP_map]
        apply List.countP_congr
        intro e he
        obtain ⟨x, hx⟩ := hidok e he
        simp [Function.comp, hsnd, checkOf, entryFileExists, mediaIdOf, hx]

theorem download_media_parts {v : List Json} {fs : MediaFs}
    {net : String → Except Unit HttpResponse} {v2 : List Json}
    {fs2 : MediaFs} {cnts : Nat × Nat} {reqs : Nat}
    (h : download_media v fs net = .ok (v2, fs2, cnts, reqs)) :
    v2 = (v.map (mediaUpdate .image)).map (mediaUpdate .audio) := by
  simp only [download_media] at h
  cases h1 : download_media_kind v .image fs net with
  | error e => rw [h1] at h; exact absurd h (by simp)
  | ok x =>
    obtain ⟨v1, fs1, c1, r1⟩ := x
    rw [h1] at h
    dsimp only at h
    cases h2 : download_media_kind v1 .audio fs1 net with
    | error e => rw [h2] at h; exact absurd h (by simp)
    | ok y =>
      obtain ⟨v2b, fs2b, c2, r2⟩ := y
      rw [h2] at h
      simp only [Except.ok.injEq, Prod.mk.injEq] at h
      obtain ⟨hv, -, -, -⟩ := h
      rw [← hv, (download_media_kind_parts h2).2.1,
          (download_media_kind_parts h1).2.1]

theorem write_csv_parts {v : List Json} {rows : List (List String)}
    (h : write_csv v = .ok rows) :
    (∀ e ∈ v, ∃ x, cleanItem e = .ok x) ∧
    rows = v.map (fun e => csv_fieldnames.map (csvCell (cleanedOf e))) := by
  simp only [write_csv] at h
  cases hc : mapME cleanItem v with
  | error e => rw [hc] at h; exact absurd h (by simp)
  | ok cleaned =>
    rw [hc] at h
    have hmem := mapME_ok_mem hc
    have hcleaned : cleaned = v.map cleanedOf :=
      mapME_ok_eq_map hc (fun e he => by
        obtain ⟨x, hx⟩ := hmem e he
        simp [cleanedOf, hx])
    refine ⟨hmem, ?_⟩
    have h2 := Except.ok.inj h
    rw [← h2, hcleaned, List.map_map]
    rfl

theorem mathCeilDiv_eq_ceil (t p : ℚ) (hp : p ≠ 0) :
    mathCeilDiv t p = ⌈t / p⌉ := by
  have hdiv : Rat.divInt (t.num * (p.den : Int)) (p.num * (t.den : Int)) = t / p := by
    rw [Rat.divInt_eq_div]
    have htden : ((t.den : ℚ)) ≠ 0 := by
      exact_mod_cast t.den_pos.ne'
    have hpden : ((p.den : ℚ)) ≠ 0 := by
      exact_mod_cast p.den_pos.ne'
    have hpnum : ((p.num : ℚ)) ≠ 0 := by
      exact_mod_cast Rat.num_ne_zero.mpr hp
    conv_rhs => rw [← Rat.num_div_den t, ← Rat.num_div_den p]
    push_cast
    field_simp
    left
    ring
  rw [mathCeilDiv, hdiv, ratCeil_eq_ceil]

theorem getPage_mkResp (items : List Json) (t p pg : ℚ) (hp : p ≠ 0) :
    get_babbel_vocabulary_page (mkResp items t p pg) =
      .ok (items, mathCeilDiv t p) := by
  simp [get_babbel_vocabulary_page, mkResp, validate, validate_review, jGet,
        List.lookup, hp]

theorem string_affix_inj {pre suf1 suf2 a b : String}
    (hlen : suf1.data.length = suf2.data.length)
    (h : pre ++ a ++ suf1 = pre ++ b ++ suf2) : a = b ∧ suf1 = suf2 := by
  have hd := congrArg String.data h
  simp only [String.data_append, List.append_assoc] at hd
  have hd2 : a.data ++ suf1.data = b.data ++ suf2.data :=
    List.append_cancel_left hd
  have hlena : a.data.length = b.data.length := by
    have h3 := congrArg List.length hd2
    simp only [List.length_append] at h3
    omega
  obtain ⟨h1, h2⟩ := List.append_inj hd2 hlena
  exact ⟨String.ext h1, String.ext h2⟩

theorem getPage_missing_total {j : Json} (h : review_missing_total j = true) :
    get_babbel_vocabulary_page j = .error .validationError := by
  unfold get_babbel_vocabulary_page
  suffices hv : validate j = false by simp [hv]
  unfold review_missing_total at h
  cases j with
  | obj kvs =>
    dsimp only at h
    unfold validate
    dsimp only
    cases hrev : kvs.lookup "review" with
    | none => rw [hrev] at h; simp at h
    | some r =>
      rw [hrev] at h
      cases r with
      | obj rkvs =>
        dsimp only at h
        cases htot : rkvs.lookup "total_filtered_items" with
        | none => simp [validate_review, htot]
        | some x => rw [htot] at h; simp at h
      | null => simp at h
      | bool b => simp at h
      | num q => simp at h
      | str s => simp at h
      | arr xs => simp at h
  | null => simp at h
  | bool b => simp at h
  | num q => simp at h
  | str s => simp at h
  | arr xs => simp at h

/-! ## Claims -/

/-- C1 (counterexample): the claim says every structurally non-conforming
response — including one missing the `review` envelope entirely — fails
with a ValidationError. In fact a response that is an object without a
`review` key passes the schema (the top level has no `required` list) and
the fetch then fails with a `KeyError`, a different kind of error. -/
theorem c1_counterexample :
    validate (Json.obj []) = true ∧
    get_babbel_vocabulary_page (Json.obj []) = .error (.keyError "review") ∧
    PyErr.keyError "review" ≠ PyErr.validationError := by
  refine ⟨by decide, by decide, by decide⟩

/-- C1 (amended): every response not of the required shape makes the page
fetch fail; the failure is a ValidationError whenever the schema check
rejects the response, but a response that is an object with no `review`
member passes the schema and fails with a `KeyError` instead. -/
theorem c1_nonconforming_fetch_fails (resp : Json)
    (h : specResponseConforms resp = false) :
    isOkE (get_babbel_vocabulary_page resp) = false ∧
    (validate resp = false →
      get_babbel_vocabulary_page resp = .error .validationError) ∧
    (validate resp = true →
      get_babbel_vocabulary_page resp = .error (.keyError "review")) := by
  have hval : validate resp = false →
      get_babbel_vocabulary_page resp = .error .validationError := by
    intro hv
    simp [get_babbel_vocabulary_page, hv]
  have hkey : validate resp = true →
      get_babbel_vocabulary_page resp = .error (.keyError "review") := by
    intro hv
    cases resp with
    | obj kvs =>
      cases hrev : kvs.lookup "review" with
      | none => simp [get_babbel_vocabulary_page, hv, jGet, hrev]
      | some r =>
        exfalso
        unfold validate at hv
        dsimp only at hv
        rw [hrev] at hv
        unfold specResponseConforms at h
        dsimp only at h
        rw [hrev] at h
        rw [hv] at h
        exact Bool.noConfusion h
    | null => simp [validate] at hv
    | bool b => simp [validate] at hv
    | num q => simp [validate] at hv
    | str s => simp [validate] at hv
    | arr xs => simp [validate] at hv
  refine ⟨?_, hval, hkey⟩
  cases hv : validate resp with
  | false => rw [hval hv]; rfl
  | true => rw [hkey hv]; rfl

/-- C1 (witness for the amended theorem), at the concrete non-conforming
response `{}`. -/
theorem c1_witness :
    get_babbel_vocabulary_page (Json.obj []) = .error (.keyError "review") :=
  (c1_nonconforming_fetch_fails (Json.obj []) (by decide)).2.2 (by decide)

/-- C2: with every row of the export file non-empty and every entry
carrying an `id` key, the dedup filter returns, in input order, exactly the
entries whose stringified identifier is not in the file's first column;
a missing export file returns the whole input with no error. -/
theorem c2_dedup_filter (rows : List (List String)) (v : List Json)
    (h1 : ∀ r ∈ rows, r ≠ []) (h2 : ∀ e ∈ v, isOkE (jGet e "id") = true) :
    select_new_vocabulary none v = .ok v ∧
    select_new_vocabulary (some rows) v =
      .ok (v.filter (fun e =>
        !(decide (idString e ∈ rows.map (fun r => r.headD ""))))) ∧
    ∀ e ∈ v, (e ∈ v.filter (fun e =>
        !(decide (idString e ∈ rows.map (fun r => r.headD "")))) ↔
      idString e ∉ rows.map (fun r => r.headD "")) := by
  have h2e : ∀ e ∈ v, ∃ x, jGet e "id" = .ok x :=
    fun e he => (isOkE_iff _).mp (h2 e he)
  refine ⟨rfl, select_some_eq h1 h2e, ?_⟩
  intro e he
  simp [List.mem_filter, he]

/-- C2 (witness): one entry already present, one new. -/
theorem c2_witness :
    select_new_vocabulary (some [["3", "x"]])
      [Json.obj [("id", .num 3)], Json.obj [("id", .num 4)]] =
      .ok [Json.obj [("id", .num 4)]] := by
  have h := (c2_dedup_filter [["3", "x"]]
      [Json.obj [("id", .num 3)], Json.obj [("id", .num 4)]]
      (by decide) (by decide)).2.1
  exact h.trans (by decide)

/-- C3 (counterexample): the claim says a non-success status fails with a
DownloadError and the error bytes are not written. In fact the code never
inspects the HTTP status: a 404 response is treated as success and its
body is written as the media file. -/
theorem c3_counterexample :
    download_media_item "17" .image []
      (fun _ => .ok ⟨404, [52, 48, 52]⟩) =
      .ok (("rus_17.jpg", false), [("rus_17.jpg", [52, 48, 52])], 1) := by
  decide

/-- C3 (amended): with the local file absent, a transport-level network
error propagates (nothing written, not retried); a response — of any
status, success or not — raises no error and its body is written as the
media file. -/
theorem c3_network_behavior (mediaId : String) (t : MediaType)
    (fs : MediaFs) (net : String → Except Unit HttpResponse)
    (habsent : fsHasFile fs (media_filenames t mediaId) = false) :
    (∀ err, net (media_urls t mediaId) = .error err →
      download_media_item mediaId t fs net = .error .netError) ∧
    (∀ resp, net (media_urls t mediaId) = .ok resp →
      download_media_item mediaId t fs net =
        .ok ((media_filenames t mediaId, false),
             fsWrite fs (media_filenames t mediaId) resp.content, 1)) := by
  constructor
  · intro err herr
    simp [download_media_item, habsent, herr]
  · intro resp hresp
    simp [download_media_item, habsent, hresp]

/-- C3 (witness for the amended theorem): a failing transport propagates. -/
theorem c3_witness :
    download_media_item "a" .audio [] (fun _ => .error ()) =
      .error .netError :=
  (c3_network_behavior "a" .audio [] (fun _ => .error ())
    (by decide)).1 () rfl

/-- C4: on a well-shaped page response the computed page count is
`⌈total_filtered_items / per_page_limit⌉`; at 95 items and a 30-item page
limit that is 4, and the collector requests exactly pages 2, 3, 4 beyond
page 1 — and no extra page when the count is 1 (or less). -/
theorem c4_page_count (items : List Json) (t p pg : ℚ) (hp : p ≠ 0) :
    get_babbel_vocabulary_page (mkResp items t p pg) = .ok (items, ⌈t / p⌉) ∧
    get_babbel_vocabulary_page (mkResp items 95 30 pg) = .ok (items, 4) ∧
    collector_extra_pages 4 = [2, 3, 4] ∧
    (∀ n : Int, n ≤ 1 → collector_extra_pages n = []) ∧
    (∀ n : Int, 1 ≤ n → (collector_extra_pages n).length = (n - 1).toNat) := by
  refine ⟨?_, ?_, by decide, ?_, ?_⟩
  · rw [getPage_mkResp items t p pg hp, mathCeilDiv_eq_ceil t p hp]
  · rw [getPage_mkResp items 95 30 pg (by norm_num)]
    rw [show mathCeilDiv 95 30 = 4 from by decide]
  · intro n hn
    unfold collector_extra_pages
    rw [if_neg (by omega)]
  · intro n hn
    unfold collector_extra_pages
    by_cases h1 : n > 1
    · rw [if_pos h1, List.length_range']
    · rw [if_neg h1]
      simp
      omega

/-- C4 (witness): the concrete 95 / 30 instance. -/
theorem c4_witness :
    get_babbel_vocabulary_page (mkResp [] 95 30 1) = .ok ([], 4) :=
  (c4_page_count [] 95 30 1 (by norm_num)).2.1

/-- C6: the local filename is a pure function of (kind, id) with no
collisions across kinds or ids; when the file exists the fetcher returns
`(filename, existed := true)` with zero network requests; and after any
successful call, a second call for the same pair makes zero requests. -/
theorem c6_media_path_determinism :
    (∀ t1 t2 : MediaType, ∀ id1 id2 : String,
      media_filenames t1 id1 = media_filenames t2 id2 →
        t1 = t2 ∧ id1 = id2) ∧
    (∀ (mediaId : String) (t : MediaType) (fs : MediaFs)
        (net : String → Except Unit HttpResponse),
      fsHasFile fs (media_filenames t mediaId) = true →
      download_media_item mediaId t fs net =
        .ok ((media_filenames t mediaId, true), fs, 0)) ∧
    (∀ (mediaId : String) (t : MediaType) (fs : MediaFs)
        (net : String → Except Unit HttpResponse) res fsB n,
      download_media_item mediaId t fs net = .ok (res, fsB, n) →
      download_media_item mediaId t fsB net =
        .ok ((media_filenames t mediaId, true), fsB, 0)) := by
  have hexist : ∀ (mediaId : String) (t : MediaType) (fs : MediaFs)
      (net : String → Except Unit HttpResponse),
      fsHasFile fs (media_filenames t mediaId) = true →
      download_media_item mediaId t fs net =
        .ok ((media_filenames t mediaId, true), fs, 0) := by
    intro mediaId t fs net hex
    simp [download_media_item, hex]
  refine ⟨?_, hexist, ?_⟩
  · intro t1 t2 id1 id2 h
    cases t1 <;> cases t2 <;> simp only [media_filenames] at h
    · obtain ⟨h1, -⟩ := string_affix_inj rfl h
      exact ⟨rfl, h1⟩
    · obtain ⟨-, h2⟩ := string_affix_inj (by decide) h
      exact absurd h2 (by decide)
    · obtain ⟨-, h2⟩ := string_affix_inj (by decide) h
      exact absurd h2 (by decide)
    · obtain ⟨h1, -⟩ := string_affix_inj rfl h
      exact ⟨rfl, h1⟩
  · intro mediaId t fs net res fsB n h
    unfold download_media_item at h
    by_cases hex : fsHasFile fs (media_filenames t mediaId) = true
    · rw [if_pos hex] at h
      simp only [Except.ok.injEq, Prod.mk.injEq] at h
      obtain ⟨-, hfs, -⟩ := h
      exact hexist mediaId t fsB net (hfs ▸ hex)
    · rw [if_neg hex] at h
      cases hnet : net (media_urls t mediaId) with
      | error err => rw [hnet] at h; exact absurd h (by simp)
      | ok resp =>
        rw [hnet] at h
        simp only [Except.ok.injEq, Prod.mk.injEq] at h
        obtain ⟨-, hfs, -⟩ := h
        exact hexist mediaId t fsB net
          (hfs ▸ fsHasFile_fsWrite_self fs (media_filenames t mediaId)
            resp.content)

/-- C6 (witness): a pre-existing file is returned with zero requests. -/
theorem c6_witness :
    download_media_item "x" .image [("rus_x.jpg", [1])] (fun _ => .error ()) =
      .ok (("rus_x.jpg", true), [("rus_x.jpg", [1])], 0) :=
  c6_media_path_determinism.2.1 "x" .image [("rus_x.jpg", [1])]
    (fun _ => .error ()) (by decide)

/-- C8: after a media fan-out batch for a kind succeeds, the i-th updated
entry is the i-th input entry with that kind's reference field set to the
embed template of the filename for its own media id (attribution is by
position), and the reported already-existed count is the number of entries
whose file was on disk at batch start. -/
theorem c8_positional_attribution (v : List Json) (t : MediaType)
    (fs : MediaFs) (net : String → Except Unit HttpResponse)
    (v2 : List Json) (fs2 : MediaFs) (c r : Nat)
    (h : download_media_kind v t fs net = .ok (v2, fs2, c, r)) :
    v2.length = v.length ∧
    (∀ i (h1 : i < v.length) (h2 : i < v2.length),
      ∃ idv, jGet (v.get ⟨i, h1⟩) (media_id_fields t) = .ok idv ∧
        v2.get ⟨i, h2⟩ = jSet (v.get ⟨i, h1⟩) (media_csv_fields t)
          (.str (media_entries t (media_filenames t (pyStr idv))))) ∧
    c = v.countP (entryFileExists t fs) := by
  obtain ⟨hid, hv2, hc, -⟩ := download_media_kind_parts h
  subst hv2
  refine ⟨by simp, ?_, hc⟩
  intro i h1 h2
  obtain ⟨x, hx⟩ := hid (v.get ⟨i, h1⟩) (List.get_mem v i h1)
  refine ⟨x, hx, ?_⟩
  simp only [List.get_eq_getElem] at hx
  simp [List.get_eq_getElem, List.getElem_map, mediaUpdate, mediaIdOf, hx]

/-- C8 (witness): a two-entry batch, one file pre-existing; the count is
read off through the theorem. -/
theorem c8_witness :
    ([Json.obj [("image_id", .str "a")],
      Json.obj [("image_id", .str "b")]].countP
      (entryFileExists .image [("rus_a.jpg", [1])])) = 1 :=
  (c8_positional_attribution
    [Json.obj [("image_id", .str "a")], Json.obj [("image_id", .str "b")]]
    .image [("rus_a.jpg", [1])] (fun _ => .ok ⟨200, [9]⟩)
    [Json.obj [("image_id", .str "a"),
               ("image_path", .str "<img src=\"rus_a.jpg\">")],
     Json.obj [("image_id", .str "b"),
               ("image_path", .str "<img src=\"rus_b.jpg\">")]]
    [("rus_a.jpg", [1]), ("rus_b.jpg", [9])] 1 1
    (by decide)).2.2.symm

/-- C9 (counterexample): the claim says an expected column absent on an
entry is written as empty; for `l2_text` the cleanup step reads the field
unconditionally, so an entry without `l2_text` raises `KeyError` instead of
being written. -/
theorem c9_counterexample :
    write_csv [Json.obj [("id", .num 1)]] = .error (.keyError "l2_text") := by
  decide

/-- C9 (amended): for entries carrying a string `l2_text`, each output row
is exactly the fixed column projection of the (parenthesis-cleaned) entry:
nine cells in the fixed order, fields outside the column set dropped,
absent fields written as the empty string — with the exception that a
missing `l2_text` raises instead (see the counterexample). -/
theorem c9_column_projection (v : List Json) (rows : List (List String))
    (h : write_csv v = .ok rows) :
    rows.length = v.length ∧
    (∀ i (h1 : i < v.length) (h2 : i < rows.length),
      rows.get ⟨i, h2⟩ =
        csv_fieldnames.map (csvCell (cleanedOf (v.get ⟨i, h1⟩))) ∧
      (rows.get ⟨i, h2⟩).length = csv_fieldnames.length) ∧
    (∀ (e : Json) (f : String), isOkE (jGet e f) = false → csvCell e f = "") ∧
    (∀ (e : Json) (f : String), f ≠ "l2_text" →
      csvCell (cleanedOf e) f = csvCell e f) := by
  obtain ⟨hclean, hrows⟩ := write_csv_parts h
  subst hrows
  refine ⟨by simp, ?_, ?_, ?_⟩
  · intro i h1 h2
    constructor
    · simp [List.get_eq_getElem, List.getElem_map]
    · simp [List.get_eq_getElem, List.getElem_map]
  · intro e f hf
    cases hg : jGet e f with
    | ok x => rw [hg] at hf; simp [isOkE] at hf
    | error err => simp [csvCell, hg]
  · intro e f hf
    simp [csvCell, jGet_cleanedOf_ne e f hf]

/-- C9 (witness for the amended theorem): an entry with an extra field and
several absent fields; its row is the fixed projection. -/
theorem c9_witness :
    ["7", "", "", "", "", "", "", "a", ""] =
      csv_fieldnames.map (csvCell (cleanedOf (Json.obj
        [("l2_text", .str "(a)"), ("extra", .str "zz"), ("id", .num 7)]))) :=
  ((c9_column_projection
      [Json.obj [("l2_text", .str "(a)"), ("extra", .str "zz"),
                 ("id", .num 7)]]
      [["7", "", "", "", "", "", "", "a", ""]] (by decide)).2.1 0
    (by decide) (by decide)).1

theorem headD_row (x : Json) :
    (csv_fieldnames.map (csvCell x)).headD "" = idString x := rfl

/-- C7: if the first page whose fetch resolves returns a response whose
`review` object lacks `total_filtered_items`, the run aborts with a
validation error before anything is written: the export file is unchanged. -/
theorem c7_missing_total_aborts (remote : Remote) (s : SysState)
    (h : review_missing_total (remote.pages 1) = true ∨
      ∃ items1 n p,
        get_babbel_vocabulary_page (remote.pages 1) = .ok (items1, n) ∧
        p ∈ collector_extra_pages n ∧
        review_missing_total (remote.pages p) = true ∧
        (∀ q ∈ collector_extra_pages n, q < p →
          ∃ r2, get_babbel_vocabulary_page (remote.pages q) = .ok r2)) :
    main_run remote s = .error .validationError ∧
    run_export_file remote s = s.exportFile := by
  have hfetch : get_babbel_vocabulary remote.pages = .error .validationError := by
    rcases h with h1 | ⟨items1, n, p, hp1, hpm, hmiss, hok⟩
    · simp [get_babbel_vocabulary, getPage_missing_total h1]
    · have hsort : (collector_extra_pages n).Pairwise (· < ·) := by
        unfold collector_extra_pages
        split
        · exact List.pairwise_lt_range' 2 _
        · exact List.Pairwise.nil
      have herr := mapME_error_first hsort hpm (getPage_missing_total hmiss) hok
      simp [get_babbel_vocabulary, hp1, herr]
  refine ⟨by simp [main_run, hfetch], ?_⟩
  simp [run_export_file, main_run, hfetch]

/-- C7 (witness): a page-1 response with an empty `review` object. -/
theorem c7_witness :
    main_run ⟨fun _ => .obj [("review", .obj [])], fun _ => .error ()⟩
      ⟨none, []⟩ = .error .validationError :=
  (c7_missing_total_aborts
    ⟨fun _ => .obj [("review", .obj [])], fun _ => .error ()⟩
    ⟨none, []⟩ (Or.inl (by decide))).1

/-- C10: when the dedup filter leaves nothing, the run stops there: no
media request is made, the export file is never opened for append, and the
whole state is returned unchanged with zero counts. -/
theorem c10_empty_dedup_no_effects (remote : Remote) (s : SysState)
    (vocab : List Json)
    (hfetch : get_babbel_vocabulary remote.pages = .ok vocab)
    (hsel : select_new_vocabulary s.exportFile vocab = .ok []) :
    main_run remote s = .ok (s, ⟨0, 0⟩) ∧
    run_export_file remote s = s.exportFile := by
  have h1 : main_run remote s = .ok (s, ⟨0, 0⟩) := by
    simp [main_run, hfetch, hsel]
  exact ⟨h1, by simp [run_export_file, h1]⟩

/-- C10 (witness): the only fetched entry is already in the export file. -/
theorem c10_witness :
    main_run ⟨fun _ => mkResp [.obj [("id", .num 1)]] 1 30 1,
              fun _ => .error ()⟩ ⟨some [["1"]], []⟩ =
      .ok (⟨some [["1"]], []⟩, ⟨0, 0⟩) :=
  (c10_empty_dedup_no_effects
    ⟨fun _ => mkResp [.obj [("id", .num 1)]] 1 30 1, fun _ => .error ()⟩
    ⟨some [["1"]], []⟩ [Json.obj [("id", .num 1)]]
    (by decide) (by decide)).1

/-- C5: running the pipeline a second time against an unchanged remote
dataset (every fetched entry carrying an identifier, as the data model
requires) appends zero rows and makes zero media network requests: the
second run returns the first run's state unchanged with zero counts. -/
theorem c5_second_run_idempotent (remote : Remote) (s0 s1 : SysState)
    (st1 : RunStats) (vocab : List Json)
    (hrun : main_run remote s0 = .ok (s1, st1))
    (hfetch : get_babbel_vocabulary remote.pages = .ok vocab)
    (hids : ∀ e ∈ vocab, isOkE (jGet e "id") = true) :
    main_run remote s1 = .ok (s1, ⟨0, 0⟩) := by
  have hidsE : ∀ e ∈ vocab, ∃ x, jGet e "id" = .ok x :=
    fun e he => (isOkE_iff _).mp (hids e he)
  unfold main_run at hrun
  rw [hfetch] at hrun
  dsimp only at hrun
  cases hsel : select_new_vocabulary s0.exportFile vocab with
  | error e => rw [hsel] at hrun; exact absurd hrun (by simp)
  | ok newV =>
    rw [hsel] at hrun
    dsimp only at hrun
    by_cases hemp : newV.isEmpty
    · rw [if_pos hemp] at hrun
      simp only [Except.ok.injEq, Prod.mk.injEq] at hrun
      obtain ⟨hs, -⟩ := hrun
      subst hs
      unfold main_run
      rw [hfetch]
      dsimp only
      rw [hsel]
      dsimp only
      rw [if_pos hemp]
    · rw [if_neg hemp] at hrun
      cases hdl : download_media newV s0.mediaFs remote.net with
      | error e => rw [hdl] at hrun; exact absurd hrun (by simp)
      | ok x =>
        obtain ⟨v2, fs2, cnts, reqs⟩ := x
        rw [hdl] at hrun
        dsimp only at hrun
        cases hwr : write_csv v2 with
        | error e => rw [hwr] at hrun; exact absurd hrun (by simp)
        | ok rows =>
          rw [hwr] at hrun
          dsimp only at hrun
          simp only [Except.ok.injEq, Prod.mk.injEq] at hrun
          obtain ⟨hsA, -⟩ := hrun
          have hv2 := download_media_parts hdl
          have hrows := (write_csv_parts hwr).2
          have hheads : rows.map (fun r => r.headD "") = newV.map idString := by
            rw [hrows, hv2, List.map_map, List.map_map, List.map_map]
            apply List.map_congr_left
            intro e _
            simp only [Function.comp]
            rw [headD_row, idString_cleanedOf, idString_mediaUpdate,
                idString_mediaUpdate]
          have hrowsne : ∀ r ∈ rows, r ≠ [] := by
            intro r hr
            rw [hrows] at hr
            obtain ⟨e, -, rfl⟩ := List.mem_map.mp hr
            simp [csv_fieldnames]
          have hkey : ∀ e ∈ vocab,
              idString e ∈
                (s0.exportFile.getD [] ++ rows).map (fun r => r.headD "") := by
            intro e he
            rw [List.map_append, hheads]
            cases hexp : s0.exportFile with
            | none =>
              rw [hexp] at hsel
              have hnv : vocab = newV := Except.ok.inj hsel
              refine List.mem_append_right _ ?_
              exact List.mem_map_of_mem idString (hnv ▸ he)
            | some oldRows =>
              rw [hexp] at hsel
              obtain ⟨hne, -, hnv⟩ := select_some_parts hsel
              simp only [Option.getD_some]
              by_cases hmem : idString e ∈ oldRows.map (fun r => r.headD "")
              · exact List.mem_append_left _ hmem
              · have hin : e ∈ newV := by
                  rw [hnv]
                  exact List.mem_filter.mpr ⟨he, by simpa using hmem⟩
                exact List.mem_append_right _ (List.mem_map_of_mem idString hin)
          have hallne : ∀ r ∈ s0.exportFile.getD [] ++ rows, r ≠ [] := by
            intro r hr
            rcases List.mem_append.mp hr with hl | hrr
            · cases hexp : s0.exportFile with
              | none =>
                rw [hexp] at hl
                exact absurd hl (by simp)
              | some oldRows =>
                rw [hexp] at hl hsel
                simp only [Option.getD_some] at hl
                exact (select_some_parts hsel).1 r hl
            · exact hrowsne r hrr
          have hsel2 : select_new_vocabulary
              (some (s0.exportFile.getD [] ++ rows)) vocab = .ok [] := by
            rw [select_some_eq hallne hidsE]
            have hfil : vocab.filter (fun e =>
                !(decide (idString e ∈ (s0.exportFile.getD [] ++ rows).map
                  (fun r => r.headD "")))) = [] := by
              rw [List.filter_eq_nil_iff]
              intro e he hc
              rw [Bool.not_eq_true'] at hc
              exact absurd (hkey e he) (of_decide_eq_false hc)
            rw [hfil]
          subst hsA
          unfold main_run
          rw [hfetch]
          dsimp only
          rw [hsel2]
          dsimp only
          rfl

/-- C5 (witness): a one-item dataset; the second run on the state the
first run produced appends nothing and downloads nothing. -/
theorem c5_witness :
    main_run ⟨fun _ => mkResp
        [.obj [("id", .num 1), ("image_id", .str "i1"),
               ("sound_id", .str "s1"), ("l2_text", .str "(hi)")]] 1 30 1,
      fun _ => .ok ⟨200, [7]⟩⟩
      ⟨some [["1", "", "i1", "<img src=\"rus_i1.jpg\">", "s1",
              "[sound:rus_s1.mp3]", "", "hi", ""]],
       [("rus_i1.jpg", [7]), ("rus_s1.mp3", [7])]⟩ =
      .ok (⟨some [["1", "", "i1", "<img src=\"rus_i1.jpg\">", "s1",
                   "[sound:rus_s1.mp3]", "", "hi", ""]],
            [("rus_i1.jpg", [7]), ("rus_s1.mp3", [7])]⟩, ⟨0, 0⟩) :=
  c5_second_run_idempotent
    ⟨fun _ => mkResp
        [.obj [("id", .num 1), ("image_id", .str "i1"),
               ("sound_id", .str "s1"), ("l2_text", .str "(hi)")]] 1 30 1,
      fun _ => .ok ⟨200, [7]⟩⟩
    ⟨none, []⟩
    ⟨some [["1", "", "i1", "<img src=\"rus_i1.jpg\">", "s1",
            "[sound:rus_s1.mp3]", "", "hi", ""]],
     [("rus_i1.jpg", [7]), ("rus_s1.mp3", [7])]⟩
    ⟨1, 2⟩
    [Json.obj [("id", .num 1), ("image_id", .str "i1"),
               ("sound_id", .str "s1"), ("l2_text", .str "(hi)")]]
    (by decide) (by decide) (by decide)

end Babbel2Anki
